import Mathlib

/-!
Verification of `aten/src/ATen/mkl/MklAllocationHelp.cpp`.

The source file defines one function, `register_mimalloc_api_to_mkl`, whose
body is four unconditional assignments to MKL's allocation-hook globals
(`i_malloc`, `i_calloc`, `i_realloc`, `i_free`, declared by MKL's
`i_malloc.h`) followed by `return true`, plus a static initializer
`static bool g_b_registered_mkl_alloction = register_mimalloc_api_to_mkl();`
that runs it once at process start.  The whole file is wrapped in
`#if AT_MKLDNN_ENABLED()` and `#ifdef USE_MIMALLOC_ON_MKL`; when either
flag is off the file compiles to nothing.

We embed the function as a state transformer on the four hook slots.
Because the body is straight-line code, the sequence of writes it performs
is a constant list, `register_body`; the function folds those writes over
the slot state and returns `true`.
-/

/-- Abstract function references.  The four `c10_mi_*` constructors are the
mimalloc wrapper functions the source installs; the `mkl_default_*`
constructors stand for the host built-in allocator functions that MKL's
`i_malloc` globals hold before any registration; `null` is a null function
pointer; `other n` is an arbitrary further function. -/
inductive FuncRef where
  | c10_mi_malloc
  | c10_mi_calloc
  | c10_mi_realloc
  | c10_mi_free
  | mkl_default_malloc
  | mkl_default_calloc
  | mkl_default_realloc
  | mkl_default_free
  | null
  | other (n : Nat)
deriving DecidableEq, Repr

/-- Names of the four MKL allocation-hook globals from `i_malloc.h`. -/
inductive SlotName where
  | i_malloc
  | i_calloc
  | i_realloc
  | i_free
deriving DecidableEq, Repr

/-- The four MKL allocation-hook globals (`i_malloc`, `i_calloc`,
`i_realloc`, `i_free`): the RegistrationSlot of the spec. -/
structure MklSlots where
  i_malloc : FuncRef
  i_calloc : FuncRef
  i_realloc : FuncRef
  i_free : FuncRef
deriving DecidableEq, Repr

/-- Read one hook global by name. -/
def slotGet (s : MklSlots) : SlotName → FuncRef
  | SlotName.i_malloc => s.i_malloc
  | SlotName.i_calloc => s.i_calloc
  | SlotName.i_realloc => s.i_realloc
  | SlotName.i_free => s.i_free

/-- Execute one assignment `slot = ref` on the hook globals. -/
def applyWrite (s : MklSlots) (w : SlotName × FuncRef) : MklSlots :=
  match w.1 with
  | SlotName.i_malloc => { s with i_malloc := w.2 }
  | SlotName.i_calloc => { s with i_calloc := w.2 }
  | SlotName.i_realloc => { s with i_realloc := w.2 }
  | SlotName.i_free => { s with i_free := w.2 }

/-- The write list of the body of `register_mimalloc_api_to_mkl`: the four
assignments the source performs, in source order, on every call
(the body is straight-line, so the list does not depend on the state). -/
def register_body : List (SlotName × FuncRef) :=
  [(SlotName.i_malloc, FuncRef.c10_mi_malloc),
   (SlotName.i_calloc, FuncRef.c10_mi_calloc),
   (SlotName.i_realloc, FuncRef.c10_mi_realloc),
   (SlotName.i_free, FuncRef.c10_mi_free)]

/-- The fixed vtable the source installs: the four `c10::mi_malloc_wrapper`
functions. -/
def mimallocVTable : MklSlots :=
  { i_malloc := FuncRef.c10_mi_malloc
    i_calloc := FuncRef.c10_mi_calloc
    i_realloc := FuncRef.c10_mi_realloc
    i_free := FuncRef.c10_mi_free }

/-- Embedding of `register_mimalloc_api_to_mkl`: performs the four
assignments of `register_body` on the hook globals and returns `true`. -/
def register_mimalloc_api_to_mkl (s : MklSlots) : MklSlots × Bool :=
  (register_body.foldl applyWrite s, true)

/-- Modelled from the spec: MKL's `i_malloc.h` globals are not under the
sources; per the spec the RegistrationSlot "starts unset at process start",
holding the host built-in default allocator. -/
def mklDefaultSlots : MklSlots :=
  { i_malloc := FuncRef.mkl_default_malloc
    i_calloc := FuncRef.mkl_default_calloc
    i_realloc := FuncRef.mkl_default_realloc
    i_free := FuncRef.mkl_default_free }

/-- Modelled from the spec: MKL's internal allocation dispatch is not under
the sources; per the spec "every allocation the host performs reads the
slot's four references", so a host allocation of kind `k` routes to the
function reference currently held by slot `k`. -/
def hostDispatch (s : MklSlots) (k : SlotName) : FuncRef :=
  slotGet s k

/-- The slot state after `n` successive calls of
`register_mimalloc_api_to_mkl` starting from `s`. -/
def registerN (n : Nat) (s : MklSlots) : MklSlots :=
  match n with
  | 0 => s
  | Nat.succ m => registerN m (register_mimalloc_api_to_mkl s).1

/-- Events of the process after the slots exist: a call of
`register_mimalloc_api_to_mkl` (the only function the source defines that
touches the slots) or a host allocation (which only reads them).  No reset,
uninstall or teardown event exists in the source. -/
inductive ProgEvent where
  | registerCall
  | hostAllocCall
deriving DecidableEq, Repr

/-- Effect of one event on the hook globals: a register call performs the
four assignments; a host allocation reads the slots and writes nothing. -/
def progStep (s : MklSlots) (e : ProgEvent) : MklSlots :=
  match e with
  | ProgEvent.registerCall => (register_mimalloc_api_to_mkl s).1
  | ProgEvent.hostAllocCall => s

/-- Run a sequence of events over the hook globals. -/
def progRun (s : MklSlots) (es : List ProgEvent) : MklSlots :=
  es.foldl progStep s

/-- An interleaving of two instruction sequences, as produced by two
threads running concurrently: `Interleaving as bs cs` holds when `cs` is a
merge of `as` and `bs` that keeps the order of each. -/
inductive Interleaving {α : Type} : List α → List α → List α → Prop where
  | nil : Interleaving [] [] []
  | left {a : α} {as bs cs : List α} :
      Interleaving as bs cs → Interleaving (a :: as) bs (a :: cs)
  | right {b : α} {as bs cs : List α} :
      Interleaving as bs cs → Interleaving as (b :: bs) (b :: cs)

/-- Process-wide state around the hook globals: the slots, the source
file's own flag `g_b_registered_mkl_alloction`, a count of memory
allocations the program has performed, a count of live entities, and
arbitrary further program state of type `α`. -/
structure WorldState (α : Type) where
  slots : MklSlots
  g_b_registered_mkl_alloction : Bool
  allocCount : Nat
  liveEntities : Nat
  otherState : α

/-- Embedding of `register_mimalloc_api_to_mkl` on the whole process
state: the body only assigns the four hook globals and returns `true`; it
touches nothing else. -/
def registerWorld {α : Type} (w : WorldState α) : WorldState α × Bool :=
  ({ w with slots := (register_mimalloc_api_to_mkl w.slots).1 },
   (register_mimalloc_api_to_mkl w.slots).2)

/-- The two compile-time feature switches guarding the source file:
`AT_MKLDNN_ENABLED()` (host library present) and `USE_MIMALLOC_ON_MKL`
(alternate allocator present). -/
structure BuildConfig where
  at_mkldnn_enabled : Bool
  use_mimalloc_on_mkl : Bool
deriving DecidableEq, Repr

/-- The static initializer of the source file: it runs the register call
and stores the returned flag in `g_b_registered_mkl_alloction`. -/
def staticInitStep {α : Type} (w : WorldState α) : WorldState α :=
  { (registerWorld w).1 with
      g_b_registered_mkl_alloction := (registerWorld w).2 }

/-- Process startup under a build configuration: when both feature
switches are on, the file's static initializer runs; when either is off,
the file compiles to nothing and startup leaves the state untouched. -/
def startupWorld {α : Type} (cfg : BuildConfig) (w : WorldState α) :
    WorldState α :=
  if cfg.at_mkldnn_enabled && cfg.use_mimalloc_on_mkl then
    staticInitStep w
  else
    w

/-- Modelled from the spec: the process state at startup, before any
registration: the slots hold the host built-in default allocator, the flag
is unset, and no allocations have been performed. -/
def initWorld : WorldState Nat :=
  { slots := mklDefaultSlots
    g_b_registered_mkl_alloction := false
    allocCount := 0
    liveEntities := 0
    otherState := 0 }

-- Basic lemmas about the embedded function.

/-- Every call installs exactly the fixed mimalloc vtable, whatever the
prior slot contents. -/
theorem register_fst (s : MklSlots) :
    (register_mimalloc_api_to_mkl s).1 = mimallocVTable := by
  cases s
  rfl

/-- Every call returns `true`. -/
theorem register_snd (s : MklSlots) :
    (register_mimalloc_api_to_mkl s).2 = true := rfl

theorem registerN_ge_one (n : Nat) (s : MklSlots) (h : 1 ≤ n) :
    registerN n s = mimallocVTable := by
  induction n generalizing s with
  | zero => omega
  | succ m ih =>
    cases Nat.eq_zero_or_pos m with
    | inl h0 =>
      subst h0
      simpa [registerN] using register_fst s
    | inr hpos =>
      simpa [registerN] using ih (register_mimalloc_api_to_mkl s).1 hpos

theorem progRun_vtable_fixed (es : List ProgEvent) :
    progRun mimallocVTable es = mimallocVTable := by
  induction es with
  | nil => rfl
  | cons e es ih =>
    cases e with
    | registerCall =>
      simpa [progRun, List.foldl, progStep, register_fst] using ih
    | hostAllocCall =>
      simpa [progRun, List.foldl, progStep] using ih

theorem progRun_two_states (es : List ProgEvent) (s : MklSlots) :
    progRun s es = s ∨ progRun s es = mimallocVTable := by
  induction es generalizing s with
  | nil => exact Or.inl rfl
  | cons e es ih =>
    cases e with
    | registerCall =>
      refine Or.inr ?_
      have : progRun s (ProgEvent.registerCall :: es) =
          progRun mimallocVTable es := by
        simp [progRun, List.foldl, progStep, register_fst]
      rw [this, progRun_vtable_fixed]
    | hostAllocCall =>
      simpa [progRun, List.foldl, progStep] using ih s

theorem progRun_replicate_hostAlloc (k : Nat) (s : MklSlots) :
    progRun s (List.replicate k ProgEvent.hostAllocCall) = s := by
  induction k with
  | zero => rfl
  | succ m ih => simpa [progRun, List.replicate, List.foldl, progStep] using ih

-- Lemmas about write lists and interleavings.

theorem slotGet_applyWrite (s : MklSlots) (w : SlotName × FuncRef)
    (k : SlotName) :
    slotGet (applyWrite s w) k = if w.1 = k then w.2 else slotGet s k := by
  obtain ⟨n, v⟩ := w
  cases n <;> cases k <;> simp [applyWrite, slotGet]

theorem foldl_no_write (w : List (SlotName × FuncRef)) (s : MklSlots)
    (k : SlotName) (h : ∀ e ∈ w, e.1 ≠ k) :
    slotGet (w.foldl applyWrite s) k = slotGet s k := by
  induction w generalizing s with
  | nil => rfl
  | cons e w ih =>
    have he : e.1 ≠ k := h e (List.mem_cons_self e w)
    have hrest : ∀ x ∈ w, x.1 ≠ k := fun x hx => h x (List.mem_cons_of_mem e hx)
    rw [List.foldl_cons, ih (applyWrite s e) hrest, slotGet_applyWrite]
    simp [he]

theorem register_body_val :
    ∀ e ∈ register_body, e.2 = slotGet mimallocVTable e.1 := by decide

theorem foldl_fixed_write (w : List (SlotName × FuncRef)) (s : MklSlots)
    (k : SlotName) (hall : ∀ e ∈ w, e ∈ register_body)
    (hex : ∃ e ∈ w, e.1 = k) :
    slotGet (w.foldl applyWrite s) k = slotGet mimallocVTable k := by
  induction w generalizing s with
  | nil => obtain ⟨e, he, _⟩ := hex; cases he
  | cons e w ih =>
    have hallrest : ∀ x ∈ w, x ∈ register_body := fun x hx =>
      hall x (List.mem_cons_of_mem e hx)
    by_cases hw : ∃ x ∈ w, x.1 = k
    · rw [List.foldl_cons]
      exact ih (applyWrite s e) hallrest hw
    · push_neg at hw
      obtain ⟨x, hx, hxk⟩ := hex
      have hek : e.1 = k := by
        rcases List.mem_cons.mp hx with h1 | h1
        · rw [← h1]; exact hxk
        · exact absurd hxk (hw x h1)
      rw [List.foldl_cons, foldl_no_write w (applyWrite s e) k hw,
        slotGet_applyWrite]
      have hval := register_body_val e (hall e (List.mem_cons_self e w))
      simp [hek, hval ▸ (hek ▸ rfl : slotGet mimallocVTable e.1 =
        slotGet mimallocVTable k)]

theorem slots_ext (s t : MklSlots) (h : ∀ k, slotGet s k = slotGet t k) :
    s = t := by
  cases s
  cases t
  have h1 := h SlotName.i_malloc
  have h2 := h SlotName.i_calloc
  have h3 := h SlotName.i_realloc
  have h4 := h SlotName.i_free
  simp only [slotGet] at h1 h2 h3 h4
  subst h1 h2 h3 h4
  rfl

theorem interleaving_mem {α : Type} {as bs cs : List α}
    (hI : Interleaving as bs cs) : ∀ c ∈ cs, c ∈ as ∨ c ∈ bs := by
  induction hI with
  | nil => intro c hc; cases hc
  | left _ ih =>
    intro c hc
    rcases List.mem_cons.mp hc with h1 | h1
    · exact Or.inl (h1 ▸ List.mem_cons_self _ _)
    · rcases ih c h1 with h2 | h2
      · exact Or.inl (List.mem_cons_of_mem _ h2)
      · exact Or.inr h2
  | right _ ih =>
    intro c hc
    rcases List.mem_cons.mp hc with h1 | h1
    · exact Or.inr (h1 ▸ List.mem_cons_self _ _)
    · rcases ih c h1 with h2 | h2
      · exact Or.inl h2
      · exact Or.inr (List.mem_cons_of_mem _ h2)

theorem interleaving_mem_left {α : Type} {as bs cs : List α}
    (hI : Interleaving as bs cs) : ∀ a ∈ as, a ∈ cs := by
  induction hI with
  | nil => intro a ha; cases ha
  | left _ ih =>
    intro x hx
    rcases List.mem_cons.mp hx with h1 | h1
    · exact h1 ▸ List.mem_cons_self _ _
    · exact List.mem_cons_of_mem _ (ih x h1)
  | right _ ih =>
    intro x hx
    exact List.mem_cons_of_mem _ (ih x hx)

theorem interleaving_append {α : Type} (as bs : List α) :
    Interleaving as bs (as ++ bs) := by
  induction as with
  | nil =>
    induction bs with
    | nil => exact Interleaving.nil
    | cons b bs ih => exact Interleaving.right ih
  | cons a as ih => exact Interleaving.left ih

theorem foldl_interleaved_register (w : List (SlotName × FuncRef))
    (s : MklSlots) (hI : Interleaving register_body register_body w) :
    w.foldl applyWrite s = mimallocVTable := by
  apply slots_ext
  intro k
  have hall : ∀ e ∈ w, e ∈ register_body := fun e he =>
    (interleaving_mem hI e he).elim id id
  have hkmem : ((k, slotGet mimallocVTable k) : SlotName × FuncRef) ∈
      register_body := by
    cases k <;> decide
  have hex : ∃ e ∈ w, e.1 = k :=
    ⟨_, interleaving_mem_left hI _ hkmem, rfl⟩
  exact foldl_fixed_write w s k hall hex

-- Claim theorems.

/-- C8: after every call of `register_mimalloc_api_to_mkl`, regardless of
the prior contents of the slots, `i_malloc`, `i_calloc`, `i_realloc` and
`i_free` hold exactly `c10_mi_malloc`, `c10_mi_calloc`, `c10_mi_realloc`
and `c10_mi_free`: each call fully overwrites all four slots with the one
hardcoded vtable. -/
theorem mkl_C8_installs_fixed_vtable (s : MklSlots) :
    (register_mimalloc_api_to_mkl s).1.i_malloc = FuncRef.c10_mi_malloc ∧
    (register_mimalloc_api_to_mkl s).1.i_calloc = FuncRef.c10_mi_calloc ∧
    (register_mimalloc_api_to_mkl s).1.i_realloc = FuncRef.c10_mi_realloc ∧
    (register_mimalloc_api_to_mkl s).1.i_free = FuncRef.c10_mi_free := by
  rw [register_fst]
  exact ⟨rfl, rfl, rfl, rfl⟩

/-- C9: `register_mimalloc_api_to_mkl` returns `true` on every call,
including repeated calls; its return value is constant across all prior
states, so it does not distinguish a first installation from a
re-registration and reports no failure. -/
theorem mkl_C9_returns_true (s t : MklSlots) :
    (register_mimalloc_api_to_mkl s).2 = true ∧
    (register_mimalloc_api_to_mkl s).2 = (register_mimalloc_api_to_mkl t).2 :=
  ⟨rfl, rfl⟩

/-- C10: `register_mimalloc_api_to_mkl` is idempotent in effect: calling it
twice in sequence leaves the four slots and the return value exactly as one
call does. -/
theorem mkl_C10_idempotent (s : MklSlots) :
    register_mimalloc_api_to_mkl (register_mimalloc_api_to_mkl s).1 =
      register_mimalloc_api_to_mkl s := by
  apply Prod.ext
  · simp [register_fst]
  · rfl

/-- C1, counterexample: a later call of `register_mimalloc_api_to_mkl` is
not a distinctly reported no-op: the body performs its four writes on every
call (the write list `register_body` is constant and nonempty), and the
result of the second call equals the result of the first (both `true`), so
no later call "performs no write", and the result sequence cannot consist
of the two distinct outcomes Installed then AlreadyInstalled. -/
theorem mkl_C1_counterexample :
    register_body.length = 4 ∧ register_body ≠ [] ∧
    (register_mimalloc_api_to_mkl
        (register_mimalloc_api_to_mkl mklDefaultSlots).1).2 =
      (register_mimalloc_api_to_mkl mklDefaultSlots).2 :=
  ⟨rfl, by decide, rfl⟩

/-- C1, amended: for every sequence of N >= 1 calls of
`register_mimalloc_api_to_mkl`, every call (first or later) performs the
same four writes installing the one fixed vtable and returns `true`; the
slot state after the N calls equals the state after the first call, so the
originally installed allocator remains active; no distinct AlreadyInstalled
result exists. -/
theorem mkl_C1_every_call_installs (s : MklSlots) (n m : Nat) (h : 1 ≤ n) :
    registerN n s = (register_mimalloc_api_to_mkl s).1 ∧
    registerN n s = mimallocVTable ∧
    (register_mimalloc_api_to_mkl (registerN m s)).2 = true := by
  refine ⟨?_, registerN_ge_one n s h, rfl⟩
  rw [registerN_ge_one n s h, register_fst]

theorem mkl_C1_every_call_installs_witness :
    1 ≤ 3 ∧
    (registerN 3 mklDefaultSlots =
        (register_mimalloc_api_to_mkl mklDefaultSlots).1 ∧
      registerN 3 mklDefaultSlots = mimallocVTable ∧
      (register_mimalloc_api_to_mkl (registerN 2 mklDefaultSlots)).2 = true) :=
  ⟨by decide, mkl_C1_every_call_installs mklDefaultSlots 3 2 (by decide)⟩

/-- C2, counterexample: the code has no validity gate.
`register_mimalloc_api_to_mkl` takes no vtable argument and cannot fail:
called while the slots already hold a previously installed vtable (here
four `other` references), it returns `true` (its only possible result;
there is no InvalidAllocatorKind outcome in the code) and does not leave
the slots unchanged: it overwrites all four. -/
theorem mkl_C2_counterexample :
    (register_mimalloc_api_to_mkl
        { i_malloc := FuncRef.other 1, i_calloc := FuncRef.other 2,
          i_realloc := FuncRef.other 3, i_free := FuncRef.other 4 }).2 =
      true ∧
    (register_mimalloc_api_to_mkl
        { i_malloc := FuncRef.other 1, i_calloc := FuncRef.other 2,
          i_realloc := FuncRef.other 3, i_free := FuncRef.other 4 }).1 ≠
      { i_malloc := FuncRef.other 1, i_calloc := FuncRef.other 2,
        i_realloc := FuncRef.other 3, i_free := FuncRef.other 4 } :=
  ⟨rfl, by decide⟩

/-- C2, amended: `register_mimalloc_api_to_mkl` accepts no vtable argument
and performs no validity check; from every prior slot state (unset or
already set) it overwrites all four slots with the fixed vtable, whose four
references are all non-null, and returns `true`; no failure result
exists. -/
theorem mkl_C2_no_validity_gate (s : MklSlots) :
    (register_mimalloc_api_to_mkl s).2 = true ∧
    (register_mimalloc_api_to_mkl s).1 = mimallocVTable ∧
    mimallocVTable.i_malloc ≠ FuncRef.null ∧
    mimallocVTable.i_calloc ≠ FuncRef.null ∧
    mimallocVTable.i_realloc ≠ FuncRef.null ∧
    mimallocVTable.i_free ≠ FuncRef.null :=
  ⟨rfl, register_fst s, by decide, by decide, by decide, by decide⟩

/-- C3: whenever `register_mimalloc_api_to_mkl` reports success (it always
does), the slots afterwards hold exactly the four references of the
installed vtable, never a mix of old and new, and every subsequent host
allocation of any kind `k`, after any further events, dispatches to the
installed reference for `k`, which differs from the host built-in default
reference for `k`. -/
theorem mkl_C3_visibility (s : MklSlots) (es : List ProgEvent)
    (k : SlotName) (h : (register_mimalloc_api_to_mkl s).2 = true) :
    (register_mimalloc_api_to_mkl s).1 = mimallocVTable ∧
    hostDispatch (progRun (register_mimalloc_api_to_mkl s).1 es) k =
      slotGet mimallocVTable k ∧
    slotGet mimallocVTable k ≠ slotGet mklDefaultSlots k := by
  refine ⟨register_fst s, ?_, ?_⟩
  · rw [register_fst, progRun_vtable_fixed]
    rfl
  · cases k <;> decide

theorem mkl_C3_visibility_witness :
    (register_mimalloc_api_to_mkl mklDefaultSlots).2 = true ∧
    ((register_mimalloc_api_to_mkl mklDefaultSlots).1 = mimallocVTable ∧
      hostDispatch
          (progRun (register_mimalloc_api_to_mkl mklDefaultSlots).1
            [ProgEvent.hostAllocCall, ProgEvent.registerCall])
          SlotName.i_malloc =
        slotGet mimallocVTable SlotName.i_malloc ∧
      slotGet mimallocVTable SlotName.i_malloc ≠
        slotGet mklDefaultSlots SlotName.i_malloc) :=
  ⟨rfl, mkl_C3_visibility mklDefaultSlots
    [ProgEvent.hostAllocCall, ProgEvent.registerCall] SlotName.i_malloc rfl⟩

/-- C4: the slot state machine.  Starting from the host default (unset)
state, every reachable state is the unset state or the installed state
(exactly two states); host allocations alone leave the state unset; the
first register call, after any number of host allocations, moves it to the
installed state; from the installed state every event sequence leaves it
installed (no transition back, and no reset or teardown event exists); and
the two states are distinct. -/
theorem mkl_C4_state_machine (es : List ProgEvent) (k : Nat) :
    (progRun mklDefaultSlots es = mklDefaultSlots ∨
      progRun mklDefaultSlots es = mimallocVTable) ∧
    progRun mklDefaultSlots (List.replicate k ProgEvent.hostAllocCall) =
      mklDefaultSlots ∧
    progRun mklDefaultSlots
        (List.replicate k ProgEvent.hostAllocCall ++
          [ProgEvent.registerCall]) = mimallocVTable ∧
    progRun mimallocVTable es = mimallocVTable ∧
    mklDefaultSlots ≠ mimallocVTable := by
  refine ⟨progRun_two_states es mklDefaultSlots,
    progRun_replicate_hostAlloc k mklDefaultSlots, ?_,
    progRun_vtable_fixed es, by decide⟩
  show List.foldl progStep mklDefaultSlots _ = _
  rw [List.foldl_append]
  have hrep := progRun_replicate_hostAlloc k mklDefaultSlots
  rw [progRun] at hrep
  rw [hrep]
  simpa [List.foldl, progStep] using register_fst mklDefaultSlots

/-- C5, counterexample: there is no compare-and-set and no distinguished
loser: when two callers run `register_mimalloc_api_to_mkl` (here one after
the other), both obtain the result `true` (two successes, not exactly one
Installed with the loser reporting AlreadyInstalled), and each caller
performs the four writes of `register_body` rather than no write. -/
theorem mkl_C5_counterexample :
    List.count true
        [(register_mimalloc_api_to_mkl mklDefaultSlots).2,
          (register_mimalloc_api_to_mkl
            (register_mimalloc_api_to_mkl mklDefaultSlots).1).2] = 2 ∧
    register_body.length ≠ 0 := by decide

/-- C5, amended: `register_mimalloc_api_to_mkl` performs its four writes
unconditionally on every call, with no compare-and-set and no caller that
"performs no writes", and every caller returns `true`; nevertheless,
because all callers write the same hardcoded vtable, any interleaving of
the write sequences of two concurrent calls leaves the slots equal to that
one vtable in full, with no mixed final state. -/
theorem mkl_C5_race (w : List (SlotName × FuncRef)) (s : MklSlots)
    (hI : Interleaving register_body register_body w) :
    w.foldl applyWrite s = mimallocVTable ∧
    (register_mimalloc_api_to_mkl s).2 = true ∧
    register_body ≠ [] :=
  ⟨foldl_interleaved_register w s hI, rfl, by decide⟩

theorem mkl_C5_race_witness :
    Interleaving register_body register_body
      (register_body ++ register_body) ∧
    ((register_body ++ register_body).foldl applyWrite mklDefaultSlots =
        mimallocVTable ∧
      (register_mimalloc_api_to_mkl mklDefaultSlots).2 = true ∧
      register_body ≠ []) :=
  ⟨interleaving_append register_body register_body,
    mkl_C5_race (register_body ++ register_body) mklDefaultSlots
      (interleaving_append register_body register_body)⟩

/-- C6: frame property of `register_mimalloc_api_to_mkl`: on the whole
process state it changes only the four hook slots (setting them to the
fixed vtable); the registration flag, the allocation count, the count of
live entities and all other program state are unchanged — it destroys
nothing and performs no allocation of its own — and every write of its
body targets one of the four slots. -/
theorem mkl_C6_frame (α : Type) (w : WorldState α) :
    (registerWorld w).1.slots = mimallocVTable ∧
    (registerWorld w).1.g_b_registered_mkl_alloction =
      w.g_b_registered_mkl_alloction ∧
    (registerWorld w).1.allocCount = w.allocCount ∧
    (registerWorld w).1.liveEntities = w.liveEntities ∧
    (registerWorld w).1.otherState = w.otherState ∧
    ∀ e ∈ register_body,
      e.1 = SlotName.i_malloc ∨ e.1 = SlotName.i_calloc ∨
        e.1 = SlotName.i_realloc ∨ e.1 = SlotName.i_free :=
  ⟨register_fst w.slots, rfl, rfl, rfl, rfl, by decide⟩

/-- C7: when either compile-time switch is off, the source file compiles
to nothing: process startup leaves every part of the process state exactly
as it was, a host allocation still dispatches to the host built-in default
allocator, and the registration flag stays unset. -/
theorem mkl_C7_disabled (cfg : BuildConfig) (w : WorldState Nat)
    (h : cfg.at_mkldnn_enabled = false ∨ cfg.use_mimalloc_on_mkl = false) :
    startupWorld cfg w = w ∧
    hostDispatch (startupWorld cfg initWorld).slots SlotName.i_malloc =
      FuncRef.mkl_default_malloc ∧
    (startupWorld cfg initWorld).g_b_registered_mkl_alloction = false := by
  have hc : (cfg.at_mkldnn_enabled && cfg.use_mimalloc_on_mkl) = false := by
    rcases h with h | h <;> simp [h]
  refine ⟨?_, ?_, ?_⟩
  · simp [startupWorld, hc]
  · simp [startupWorld, hc]
    rfl
  · simp [startupWorld, hc]
    rfl

theorem mkl_C7_disabled_witness :
    ((BuildConfig.mk false true).at_mkldnn_enabled = false ∨
      (BuildConfig.mk false true).use_mimalloc_on_mkl = false) ∧
    (startupWorld (BuildConfig.mk false true) initWorld = initWorld ∧
      hostDispatch
          (startupWorld (BuildConfig.mk false true) initWorld).slots
          SlotName.i_malloc = FuncRef.mkl_default_malloc ∧
      (startupWorld (BuildConfig.mk false true)
          initWorld).g_b_registered_mkl_alloction = false) :=
  ⟨Or.inl rfl,
    mkl_C7_disabled (BuildConfig.mk false true) initWorld (Or.inl rfl)⟩
